import Mathlib

/-!
Shallow embedding of the query-planning core in `proton::matching` (file
`query.cpp`): the query-tree injection algorithm, location injection,
`buildTree`, the white-list merge performed by `reserveHandles`, the
two-phase `optimize` protocol, and `extractLocations`.

Strings from the C++ (`vespalib::string`) are embedded as `List Char`.
External collaborators (the stack-dump tree creator, the same-element
modifier, the unpacking-iterators optimizer, the view resolver, the
blueprint builder and `Blueprint::optimize`) live outside this file's
source scope and are passed as explicit function parameters, except where
a claim forces a concrete model, which is then modelled from the spec.
-/

/-- Character strings of the embedded program (`vespalib::string`). -/
abbrev Str := List Char

/-- Posting-unpacking strategy annotation carried by term nodes
(written by the unpacking-iterators optimizer). -/
inductive UnpackMode where
| eager
| lazyMode
| splitMode
deriving DecidableEq

/-- Query tree nodes (`search::query::Node` hierarchy as used by
`query.cpp`): term leaves, the synthetic `ProtonLocationTerm`, and the
intermediate operators tested by `inject` (`And`, `Rank`, `AndNot`) plus
representatives of the remaining intermediates (`Or`, `Near`). Each
intermediate owns an ordered list of children. -/
inductive Node where
| term (id : Int) (view : Str) (word : Str) (weight : Int) (unpack : UnpackMode)
| locationTerm (loc : Str) (view : Str) (id : Int) (weight : Int)
| and (children : List Node)
| or (children : List Node)
| rank (children : List Node)
| andNot (children : List Node)
| near (children : List Node)

/-- `inject` from `query.cpp` (anonymous namespace): append to an `And`
root; for a `Rank`/`AndNot` root, `stealFirst` the first child, inject
into it and `prepend` the result (the C++ requires a first child to
exist; `Rank`/`AndNot` intermediates always have one); otherwise wrap the
old root and the new node under a fresh `And`. -/
def inject (query : Node) (to_inject : Node) : Node :=
  match query with
  | .and cs => .and (cs ++ [to_inject])
  | .rank (c0 :: rest) => .rank (inject c0 to_inject :: rest)
  | .andNot (c0 :: rest) => .andNot (inject c0 to_inject :: rest)
  | other => .and [other, to_inject]

/-- The `fef::Location` side-channel descriptor filled by
`addLocationNode` (default-constructed state has `valid = false`). -/
structure FefLocation where
  attributeName : Str := []
  x : Int := 0
  y : Int := 0
  xAspect : Int := 0
  valid : Bool := false
deriving DecidableEq

/-- Result of parsing a location-spec sub-string
(`search::common::Location`): coordinates, aspect and the two
distance-semantics flags read by `addLocationNode`. -/
structure LocationSpec where
  x : Int
  y : Int
  xAspect : Int
  rankOnDistance : Bool
  pruneOnDistance : Bool
deriving DecidableEq

/-- External collaborators of `addLocationNode`: the z-curve view-name
resolution (`PositionDataType::getZCurveFieldName`) and the external
location parser (`search::common::Location::parse`, `none` on parse
error). -/
structure LocationEnv where
  getZCurveFieldName : Str → Str
  parse : Str → Option LocationSpec

/-- `location_str.find(':')` followed by the two `substr` calls: split at
the first `':'` into the part before it and the part after it; `none`
when no `':'` occurs. -/
def splitAtColon : Str → Option (Str × Str)
  | [] => none
  | c :: rest =>
    if c = ':' then some ([], rest)
    else
      match splitAtColon rest with
      | some (a, b) => some (c :: a, b)
      | none => none

/-- `addLocationNode` from `query.cpp`: empty string is a no-op; a
missing `':'` separator is logged and skipped; a parse failure is logged
and skipped; a rank-on-distance spec injects a `ProtonLocationTerm`
(weight 100, id -1) and populates + validates the descriptor; a
prune-on-distance spec performs the same injection but leaves the
descriptor untouched. -/
def addLocationNode (env : LocationEnv) (location_str : Str)
    (query_tree : Node) (fef_location : FefLocation) : Node × FefLocation :=
  if location_str.isEmpty then (query_tree, fef_location)
  else
    match splitAtColon location_str with
    | none => (query_tree, fef_location)
    | some (viewPart, loc) =>
      let view := env.getZCurveFieldName viewPart
      match env.parse loc with
      | none => (query_tree, fef_location)
      | some locationSpec =>
        if locationSpec.rankOnDistance then
          (inject query_tree (.locationTerm loc view (-1) 100),
           { fef_location with
               attributeName := view
               x := locationSpec.x
               y := locationSpec.y
               xAspect := locationSpec.xAspect
               valid := true })
        else if locationSpec.pruneOnDistance then
          (inject query_tree (.locationTerm loc view (-1) 100), fef_location)
        else
          (query_tree, fef_location)

/-- Blueprint nodes (`search::queryeval::Blueprint` as used by
`query.cpp`): the intermediates tested by `asRankOrAndNot`
(`RankBlueprint`, `AndNotBlueprint`), `AndBlueprint`, a representative
further intermediate (`Or`) and leaves carrying a hit-count estimate. -/
inductive Blueprint where
| and (children : List Blueprint)
| or (children : List Blueprint)
| rank (children : List Blueprint)
| andNot (children : List Blueprint)
| leaf (id : Nat) (estimate : Nat)

/-- `asRankOrAndNot` from `query.cpp`: the two `dynamic_cast` tests,
as a discriminant check. -/
def asRankOrAndNot : Blueprint → Bool
  | .rank _ => true
  | .andNot _ => true
  | _ => false

/-- The white-list surgery of `Query::reserveHandles` for a root already
known to be `Rank`/`AndNot`: this fuses `lastConsequtiveRankOrAndNot`
(descend through first children while they are `Rank`/`AndNot`) with the
in-place `removeChild(0)` / `insertChild(0, And(child0, whiteList))`
rewrite at the deepest such node. The C++ accesses `getChild(0)`, so
every chain node has a first child; an intermediate without children is
left untouched here. -/
def spliceWhiteList (wl : Blueprint) : Blueprint → Blueprint
  | .rank (c0 :: rest) =>
    if asRankOrAndNot c0 then .rank (spliceWhiteList wl c0 :: rest)
    else .rank (.and [c0, wl] :: rest)
  | .andNot (c0 :: rest) =>
    if asRankOrAndNot c0 then .andNot (spliceWhiteList wl c0 :: rest)
    else .andNot (.and [c0, wl] :: rest)
  | b => b

/-- The white-list branch of `Query::reserveHandles`: when the root is
`Rank`/`AndNot`, splice the white list at the deepest consecutive
`Rank`/`AndNot` chain node; otherwise replace the root by
`And(root, whiteList)`. -/
def whiteListMerge (blueprint : Blueprint) (wl : Blueprint) : Blueprint :=
  if asRankOrAndNot blueprint then spliceWhiteList wl blueprint
  else .and [blueprint, wl]

/-- The externally supplied white-list blueprint
(`Query::setWhiteListBlueprint` argument): the blueprint itself and, when
the blueprint implements `WhiteListProvider` (the `dynamic_cast` in
`setWhiteListBlueprint`), the bitmap `get_white_list_filter()` returns.
The bitmap (`search::BitVector`) is embedded as a `List Bool`. -/
structure WhiteList where
  blueprint : Blueprint
  providerFilter : Option (List Bool)

/-- The state of a `proton::matching::Query` object: the built query
tree, the side-channel location descriptor, the pending white-list
blueprint with its provider bitmap, and the blueprint produced by
`reserveHandles`. -/
structure QueryState where
  query_tree : Option Node
  location : FefLocation
  whiteListBlueprint : Option Blueprint
  white_list_provider : Option (List Bool)
  blueprint : Option Blueprint

/-- A freshly constructed `Query`: no tree, no blueprint, no white list,
default (invalid) location descriptor. -/
def Query.init : QueryState :=
  { query_tree := none
    location := {}
    whiteListBlueprint := none
    white_list_provider := none
    blueprint := none }

/-- `Query::setWhiteListBlueprint`: store the blueprint and re-derive
`_white_list_provider` from it. -/
def Query.setWhiteListBlueprint (wl : WhiteList) (q : QueryState) : QueryState :=
  { q with
      whiteListBlueprint := some wl.blueprint
      white_list_provider := wl.providerFilter }

/-- External collaborators of `Query::buildTree`: the stack-dump tree
creator (`QueryTreeCreator::create`, `none` on malformed input), the
same-element modifier, the unpacking-iterators optimizer (second
argument is `bool(_whiteListBlueprint)`), the view-resolution pass, and
the location-injection collaborators. -/
structure BuildEnv where
  create : Str → Option Node
  sameElementModifier : Node → Node
  unpackingOptimize : Node → Bool → Bool → Bool → Node
  resolveViews : Node → Node
  loc : LocationEnv

/-- `Query::buildTree`: create the tree from the stack dump; on failure
(`nullptr` tree) return `false` with no further pass applied; on success
run the same-element rewrite, location injection, the unpacking
optimization (passing whether a white-list blueprint is currently set),
and view resolution, then return `true`. -/
def Query.buildTree (env : BuildEnv) (stack : Str) (location_str : Str)
    (split_unpacking delay_unpacking : Bool) (q : QueryState) :
    QueryState × Bool :=
  match env.create stack with
  | some t =>
    let t1 := env.sameElementModifier t
    let tfl := addLocationNode env.loc location_str t1 q.location
    let t3 := env.unpackingOptimize tfl.1 q.whiteListBlueprint.isSome
      split_unpacking delay_unpacking
    let t4 := env.resolveViews t3
    ({ q with query_tree := some t4, location := tfl.2 }, true)
  | none => ({ q with query_tree := none }, false)

/-- `Query::extractLocations`: clear the output vector, then push a
pointer to the query's single internal location descriptor. -/
def Query.extractLocations (_locations : List FefLocation) (q : QueryState) :
    List FefLocation :=
  [q.location]

/-- `Query::reserveHandles` (blueprint part): build the blueprint from
the query tree (builder is external) and, when a white-list blueprint is
pending, merge it with `whiteListMerge`; the white-list blueprint is
moved from, i.e. cleared. A `Query` with no built tree never reaches
this call, so it is modelled as the identity there. -/
def Query.reserveHandles (build : Node → Blueprint) (q : QueryState) : QueryState :=
  match q.query_tree with
  | none => q
  | some t =>
    let b := build t
    match q.whiteListBlueprint with
    | none => { q with blueprint := some b }
    | some wl =>
      { q with
          blueprint := some (whiteListMerge b wl)
          whiteListBlueprint := none }

/-- Events observable during one `Query::optimize` call: a run of the
blueprint-optimization rewrite (`Blueprint::optimize`) and the
attachment of a global filter built from the given bitmap. -/
inductive OptEvent where
| runOptimize
| attachGlobalFilter (filter : Option (List Bool))
deriving DecidableEq

/-- External collaborators of `Query::optimize`: the blueprint rewrite
`Blueprint::optimize`, the root state's `want_global_filter()` flag, and
`set_global_filter` (taking the bitmap the `GlobalFilter` was created
from). -/
structure OptEnv where
  optimizeBp : Blueprint → Blueprint
  wantGlobalFilter : Blueprint → Bool
  setGlobalFilter : Blueprint → Option (List Bool) → Blueprint

/-- `Query::optimize`: run `Blueprint::optimize` once; if the resulting
root wants a global filter, build the filter from the white-list
provider's bitmap when a provider is present (null bitmap otherwise),
attach it, and run `Blueprint::optimize` a second time. The returned
trace lists the externally visible events in order. `optimize` is only
called after `reserveHandles`, so the no-blueprint state is modelled as
inert. -/
def Query.optimizeQ (env : OptEnv) (q : QueryState) : QueryState × List OptEvent :=
  match q.blueprint with
  | none => (q, [])
  | some b =>
    let b1 := env.optimizeBp b
    if env.wantGlobalFilter b1 then
      let white_list := q.white_list_provider
      let b2 := env.setGlobalFilter b1 white_list
      let b3 := env.optimizeBp b2
      ({ q with blueprint := some b3 },
       [OptEvent.runOptimize, OptEvent.attachGlobalFilter white_list,
        OptEvent.runOptimize])
    else
      ({ q with blueprint := some b1 }, [OptEvent.runOptimize])

mutual

/-- Number of term leaves of a query tree (term and location-term
nodes). -/
def Node.termCount : Node → Nat
  | .term _ _ _ _ _ => 1
  | .locationTerm _ _ _ _ => 1
  | .and cs => termCountList cs
  | .or cs => termCountList cs
  | .rank cs => termCountList cs
  | .andNot cs => termCountList cs
  | .near cs => termCountList cs

/-- Sum of the term counts of a list of trees. -/
def termCountList : List Node → Nat
  | [] => 0
  | n :: ns => n.termCount + termCountList ns

end

mutual

/-- Hit-count estimate of a blueprint, per the spec's operator
semantics: a leaf reports its backing estimate, `And` the minimum of its
children, `Or` a union bound, `Rank`/`AndNot` the first child's
estimate. -/
def Blueprint.estimate : Blueprint → Nat
  | .leaf _ e => e
  | .and cs => estimateMin cs
  | .or cs => estimateSum cs
  | .rank [] => 0
  | .rank (c :: _) => c.estimate
  | .andNot [] => 0
  | .andNot (c :: _) => c.estimate

/-- Minimum of the estimates of a nonempty list (0 for the empty
list). -/
def estimateMin : List Blueprint → Nat
  | [] => 0
  | [c] => c.estimate
  | c :: cs => min c.estimate (estimateMin cs)

/-- Sum of the estimates of a list. -/
def estimateSum : List Blueprint → Nat
  | [] => 0
  | c :: cs => c.estimate + estimateSum cs

end

/-- Cheaper-first ordering on blueprints by hit-count estimate, the sort
key of the spec-modelled optimizer. -/
def estLE (a b : Blueprint) : Prop := a.estimate ≤ b.estimate

instance : DecidableRel estLE := fun a b => Nat.decLe a.estimate b.estimate

instance : IsTotal Blueprint estLE := ⟨fun a b => Nat.le_total a.estimate b.estimate⟩

instance : IsTrans Blueprint estLE := ⟨fun _ _ _ h1 h2 => Nat.le_trans h1 h2⟩

mutual

/-- Modelled from the spec: `Blueprint::optimize` (not under `src/`; only
its call sites in `Query::optimize` are) performs a cost-based rewrite
that reorders `And` operands to put cheaper/more selective children
first, given current hit estimates; the other operators keep their child
order and all children are rewritten recursively. -/
def specOptimize : Blueprint → Blueprint
  | .and cs => .and (List.insertionSort estLE (specOptimizeList cs))
  | .or cs => .or (specOptimizeList cs)
  | .rank cs => .rank (specOptimizeList cs)
  | .andNot cs => .andNot (specOptimizeList cs)
  | .leaf i e => .leaf i e

/-- Recursive rewrite of a child list by `specOptimize`. -/
def specOptimizeList : List Blueprint → List Blueprint
  | [] => []
  | b :: bs => specOptimize b :: specOptimizeList bs

end

theorem specOptimizeList_eq_map (l : List Blueprint) :
    specOptimizeList l = l.map specOptimize := by
  induction l with
  | nil => rfl
  | cons b bs ih => simp [specOptimizeList, ih]

theorem map_eq_self_of_forall {α : Type} (f : α → α) (l : List α)
    (h : ∀ x ∈ l, f x = x) : l.map f = l := by
  induction l with
  | nil => rfl
  | cons a l ih =>
    simp only [List.map_cons, h a (List.mem_cons_self a l)]
    rw [ih (fun x hx => h x (List.mem_cons_of_mem a hx))]

theorem specOptimize_idem_aux :
    ∀ (n : Nat) (b : Blueprint), sizeOf b ≤ n →
      specOptimize (specOptimize b) = specOptimize b := by
  intro n
  induction n with
  | zero =>
    intro b hb
    cases b <;> simp_arith at hb
  | succ n ih =>
    intro b hb
    cases b with
    | leaf i e => rfl
    | and cs =>
      have hcs : sizeOf cs ≤ n := by simp_arith at hb; omega
      show Blueprint.and
          (List.insertionSort estLE
            (specOptimizeList (List.insertionSort estLE (specOptimizeList cs)))) =
        Blueprint.and (List.insertionSort estLE (specOptimizeList cs))
      have hfix : ∀ y ∈ List.insertionSort estLE (specOptimizeList cs),
          specOptimize y = y := by
        intro y hy
        rw [List.mem_insertionSort, specOptimizeList_eq_map] at hy
        obtain ⟨x, hx, rfl⟩ := List.mem_map.mp hy
        have hlt : sizeOf x < sizeOf cs := List.sizeOf_lt_of_mem hx
        exact ih x (by omega)
      rw [specOptimizeList_eq_map,
        map_eq_self_of_forall specOptimize _ hfix,
        (List.sorted_insertionSort estLE _).insertionSort_eq]
    | or cs =>
      have hcs : sizeOf cs ≤ n := by simp_arith at hb; omega
      show Blueprint.or (specOptimizeList (specOptimizeList cs)) =
        Blueprint.or (specOptimizeList cs)
      rw [specOptimizeList_eq_map, specOptimizeList_eq_map,
        map_eq_self_of_forall specOptimize _ (by
          intro y hy
          obtain ⟨x, hx, rfl⟩ := List.mem_map.mp hy
          have hlt : sizeOf x < sizeOf cs := List.sizeOf_lt_of_mem hx
          exact ih x (by omega))]
    | rank cs =>
      have hcs : sizeOf cs ≤ n := by simp_arith at hb; omega
      show Blueprint.rank (specOptimizeList (specOptimizeList cs)) =
        Blueprint.rank (specOptimizeList cs)
      rw [specOptimizeList_eq_map, specOptimizeList_eq_map,
        map_eq_self_of_forall specOptimize _ (by
          intro y hy
          obtain ⟨x, hx, rfl⟩ := List.mem_map.mp hy
          have hlt : sizeOf x < sizeOf cs := List.sizeOf_lt_of_mem hx
          exact ih x (by omega))]
    | andNot cs =>
      have hcs : sizeOf cs ≤ n := by simp_arith at hb; omega
      show Blueprint.andNot (specOptimizeList (specOptimizeList cs)) =
        Blueprint.andNot (specOptimizeList cs)
      rw [specOptimizeList_eq_map, specOptimizeList_eq_map,
        map_eq_self_of_forall specOptimize _ (by
          intro y hy
          obtain ⟨x, hx, rfl⟩ := List.mem_map.mp hy
          have hlt : sizeOf x < sizeOf cs := List.sizeOf_lt_of_mem hx
          exact ih x (by omega))]

theorem specOptimize_idem (b : Blueprint) :
    specOptimize (specOptimize b) = specOptimize b :=
  specOptimize_idem_aux (sizeOf b) b (Nat.le_refl _)

mutual

/-- Rewrite the unpacking annotation of every term leaf of a tree to the
given strategy. -/
def annotateTerms (m : UnpackMode) : Node → Node
  | .term i v w wt _ => .term i v w wt m
  | .locationTerm l v i w => .locationTerm l v i w
  | .and cs => .and (annotateTermsList m cs)
  | .or cs => .or (annotateTermsList m cs)
  | .rank cs => .rank (annotateTermsList m cs)
  | .andNot cs => .andNot (annotateTermsList m cs)
  | .near cs => .near (annotateTermsList m cs)

/-- `annotateTerms` over a child list. -/
def annotateTermsList (m : UnpackMode) : List Node → List Node
  | [] => []
  | n :: ns => annotateTerms m n :: annotateTermsList m ns

end

/-- Modelled from the spec: the unpacking-mode optimizer
(`UnpackingIteratorsOptimizer::optimize`, not under `src/`; only its
call site in `Query::buildTree` is) annotates term nodes with a
posting-unpacking strategy (eager / lazy / split) based on the
configuration flags and on whether a visibility (white-list) filter is
present. Illustrative strategy choice: with splitting configured the
strategy additionally depends on the visibility filter's presence. -/
def specUnpackingOptimize (t : Node)
    (has_white_list split_unpacking delay_unpacking : Bool) : Node :=
  if split_unpacking && has_white_list then annotateTerms .splitMode t
  else if delay_unpacking then annotateTerms .lazyMode t
  else annotateTerms .eager t

/-- Modelled from the spec: the external location parser's illustrative
result on the sub-string of `"view1:2,100,10,0"` — rank-on-distance
semantics with x = 100, y = 10 (`search::common::Location::parse` is not
under `src/`; only its call site in `addLocationNode` is). -/
def specExampleParse (loc : Str) : Option LocationSpec :=
  if loc = "2,100,10,0".toList then
    some { x := 100, y := 10, xAspect := 0,
           rankOnDistance := true, pruneOnDistance := false }
  else none

/-- Modelled from the spec: `PositionDataType::getZCurveFieldName` (not
under `src/`) resolves a position field name to the name of its backing
z-curve attribute view. -/
def specZCurveFieldName (field : Str) : Str := field ++ "_zcurve".toList

/-- The location collaborators instantiated with the spec-modelled
parser and view resolution. -/
def specExampleLocationEnv : LocationEnv :=
  { getZCurveFieldName := specZCurveFieldName
    parse := specExampleParse }

/-- Which injection `addLocationNode` performs for a given location
string: `none` when nothing is injected (empty string, missing `':'`,
parse failure, or neither distance flag set), `some true` for a
rank-on-distance injection, `some false` for a prune-only injection. -/
def locationInjectKind (env : LocationEnv) (location_str : Str) : Option Bool :=
  if location_str.isEmpty then none
  else
    match splitAtColon location_str with
    | none => none
    | some (_, loc) =>
      match env.parse loc with
      | none => none
      | some locationSpec =>
        if locationSpec.rankOnDistance then some true
        else if locationSpec.pruneOnDistance then some false
        else none

theorem termCountList_append (a b : List Node) :
    termCountList (a ++ b) = termCountList a + termCountList b := by
  induction a with
  | nil => simp [termCountList]
  | cons n ns ih =>
    show termCountList (n :: (ns ++ b)) = termCountList (n :: ns) + termCountList b
    simp only [termCountList, ih]
    omega

theorem inject_termCount_aux :
    ∀ (n : Nat) (query to_inject : Node), sizeOf query ≤ n →
      (inject query to_inject).termCount =
        query.termCount + to_inject.termCount := by
  intro n
  induction n with
  | zero =>
    intro q t hq
    cases q <;> simp_arith at hq
  | succ n ih =>
    intro q t hq
    cases q with
    | term i v w wt u =>
      simp [inject, Node.termCount, termCountList]
    | locationTerm l v i w =>
      simp [inject, Node.termCount, termCountList]
    | and cs =>
      show termCountList (cs ++ [t]) = termCountList cs + t.termCount
      simp [termCountList_append, termCountList]
    | or cs =>
      simp [inject, Node.termCount, termCountList]
    | near cs =>
      simp [inject, Node.termCount, termCountList]
    | rank cs =>
      cases cs with
      | nil => simp [inject, Node.termCount, termCountList]
      | cons c0 rest =>
        have hc0 : sizeOf c0 ≤ n := by simp_arith at hq; omega
        show (Node.rank (inject c0 t :: rest)).termCount =
          (Node.rank (c0 :: rest)).termCount + t.termCount
        simp only [Node.termCount, termCountList, ih c0 t hc0]
        omega
    | andNot cs =>
      cases cs with
      | nil => simp [inject, Node.termCount, termCountList]
      | cons c0 rest =>
        have hc0 : sizeOf c0 ≤ n := by simp_arith at hq; omega
        show (Node.andNot (inject c0 t :: rest)).termCount =
          (Node.andNot (c0 :: rest)).termCount + t.termCount
        simp only [Node.termCount, termCountList, ih c0 t hc0]
        omega

theorem inject_termCount (query to_inject : Node) :
    (inject query to_inject).termCount =
      query.termCount + to_inject.termCount :=
  inject_termCount_aux (sizeOf query) query to_inject (Nat.le_refl _)

theorem splitAtColon_isEmpty_eq_false {s : Str} {p : Str × Str}
    (h : splitAtColon s = some p) : s.isEmpty = false := by
  cases s with
  | nil => simp [splitAtColon] at h
  | cons c rest => rfl

theorem addLocationNode_nil (env : LocationEnv) (t : Node) (fl : FefLocation) :
    addLocationNode env [] t fl = (t, fl) := rfl

theorem addLocationNode_noColon (env : LocationEnv) {s : Str}
    (hs : splitAtColon s = none) (t : Node) (fl : FefLocation) :
    addLocationNode env s t fl = (t, fl) := by
  by_cases he : s.isEmpty
  · simp [addLocationNode, he]
  · simp [addLocationNode, he, hs]

theorem addLocationNode_parseFail (env : LocationEnv) {s viewPart loc : Str}
    (hs : splitAtColon s = some (viewPart, loc)) (hp : env.parse loc = none)
    (t : Node) (fl : FefLocation) :
    addLocationNode env s t fl = (t, fl) := by
  simp [addLocationNode, splitAtColon_isEmpty_eq_false hs, hs, hp]

theorem addLocationNode_rankOnDistance (env : LocationEnv)
    {s viewPart loc : Str} {ls : LocationSpec}
    (hs : splitAtColon s = some (viewPart, loc)) (hp : env.parse loc = some ls)
    (hr : ls.rankOnDistance = true) (t : Node) (fl : FefLocation) :
    addLocationNode env s t fl =
      (inject t (.locationTerm loc (env.getZCurveFieldName viewPart) (-1) 100),
       { fl with
           attributeName := env.getZCurveFieldName viewPart
           x := ls.x
           y := ls.y
           xAspect := ls.xAspect
           valid := true }) := by
  simp [addLocationNode, splitAtColon_isEmpty_eq_false hs, hs, hp, hr]

theorem addLocationNode_pruneOnDistance (env : LocationEnv)
    {s viewPart loc : Str} {ls : LocationSpec}
    (hs : splitAtColon s = some (viewPart, loc)) (hp : env.parse loc = some ls)
    (hr : ls.rankOnDistance = false) (hpr : ls.pruneOnDistance = true)
    (t : Node) (fl : FefLocation) :
    addLocationNode env s t fl =
      (inject t (.locationTerm loc (env.getZCurveFieldName viewPart) (-1) 100),
       fl) := by
  simp [addLocationNode, splitAtColon_isEmpty_eq_false hs, hs, hp, hr, hpr]

theorem addLocationNode_termCount (env : LocationEnv) (s : Str) (t : Node)
    (fl : FefLocation) :
    (addLocationNode env s t fl).1.termCount =
      t.termCount + (if (locationInjectKind env s).isSome then 1 else 0) := by
  unfold addLocationNode locationInjectKind
  by_cases he : s.isEmpty
  · simp [he]
  · cases hsp : splitAtColon s with
    | none => simp [he, hsp]
    | some p =>
      obtain ⟨viewPart, loc⟩ := p
      cases hp : env.parse loc with
      | none => simp [he, hsp, hp]
      | some locationSpec =>
        by_cases hr : locationSpec.rankOnDistance
        · simp [he, hsp, hp, hr, inject_termCount, Node.termCount]
        · by_cases hpr : locationSpec.pruneOnDistance
          · simp [he, hsp, hp, hr, hpr, inject_termCount, Node.termCount]
          · simp [he, hsp, hp, hr, hpr]


theorem asRankOrAndNot_rank (cs : List Blueprint) :
    asRankOrAndNot (.rank cs) = true := rfl

theorem asRankOrAndNot_andNot (cs : List Blueprint) :
    asRankOrAndNot (.andNot cs) = true := rfl

theorem whiteListMerge_not_rankOrAndNot {b : Blueprint} (w : Blueprint)
    (h : asRankOrAndNot b = false) :
    whiteListMerge b w = .and [b, w] := by
  simp [whiteListMerge, h]

theorem whiteListMerge_rank_stop {c0 : Blueprint} (rest : List Blueprint)
    (w : Blueprint) (h : asRankOrAndNot c0 = false) :
    whiteListMerge (.rank (c0 :: rest)) w = .rank (.and [c0, w] :: rest) := by
  simp [whiteListMerge, asRankOrAndNot_rank, spliceWhiteList, h]

theorem whiteListMerge_andNot_stop {c0 : Blueprint} (rest : List Blueprint)
    (w : Blueprint) (h : asRankOrAndNot c0 = false) :
    whiteListMerge (.andNot (c0 :: rest)) w = .andNot (.and [c0, w] :: rest) := by
  simp [whiteListMerge, asRankOrAndNot_andNot, spliceWhiteList, h]

theorem whiteListMerge_rank_descend {c0 : Blueprint} (rest : List Blueprint)
    (w : Blueprint) (h : asRankOrAndNot c0 = true) :
    whiteListMerge (.rank (c0 :: rest)) w = .rank (whiteListMerge c0 w :: rest) := by
  simp [whiteListMerge, asRankOrAndNot_rank, spliceWhiteList, h]

theorem whiteListMerge_andNot_descend {c0 : Blueprint} (rest : List Blueprint)
    (w : Blueprint) (h : asRankOrAndNot c0 = true) :
    whiteListMerge (.andNot (c0 :: rest)) w =
      .andNot (whiteListMerge c0 w :: rest) := by
  simp [whiteListMerge, asRankOrAndNot_andNot, spliceWhiteList, h]

theorem reserveHandles_whiteList (build : Node → Blueprint) {q : QueryState}
    {t : Node} {wl : Blueprint} (hq : q.query_tree = some t)
    (hw : q.whiteListBlueprint = some wl) :
    (Query.reserveHandles build q).blueprint =
      some (whiteListMerge (build t) wl) := by
  simp [Query.reserveHandles, hq, hw]

/-- Number of optimizer-rewrite runs in an event trace. -/
def countRuns : List OptEvent → Nat
  | [] => 0
  | OptEvent.runOptimize :: es => countRuns es + 1
  | _ :: es => countRuns es

/-- Unpacking annotation of the root when the tree is a single term
leaf. -/
def headUnpackOpt : Option Node → Option UnpackMode
  | some (.term _ _ _ _ u) => some u
  | _ => none

/-- Term count of an optional tree (0 when absent). -/
def treeTermCount : Option Node → Nat
  | some t => t.termCount
  | none => 0

/-- C1: White-list merge: for every blueprint tree and white-list
blueprint, the merge performed by `reserveHandles` descends through the
first children of the chain of consecutive `Rank`/`AndNot` nodes
starting at the root; at the deepest such node the first child is
removed and replaced by a new `And` of that old first child and the
white list; a root that is not `Rank`/`AndNot` is wrapped as
`And(root, whiteList)`. In particular `Rank(Rank(T1, T2), T3)` gets the
filter at `T1`'s position, leaving `T2` and `T3` unfiltered, and a plain
term `T` yields `And(T, whiteList)`. -/
theorem C1_whitelist_merge :
    (∀ (b w : Blueprint), asRankOrAndNot b = false →
       whiteListMerge b w = .and [b, w]) ∧
    (∀ (c0 : Blueprint) (rest : List Blueprint) (w : Blueprint),
       asRankOrAndNot c0 = false →
       whiteListMerge (.rank (c0 :: rest)) w = .rank (.and [c0, w] :: rest) ∧
       whiteListMerge (.andNot (c0 :: rest)) w = .andNot (.and [c0, w] :: rest)) ∧
    (∀ (c0 : Blueprint) (rest : List Blueprint) (w : Blueprint),
       asRankOrAndNot c0 = true →
       whiteListMerge (.rank (c0 :: rest)) w = .rank (whiteListMerge c0 w :: rest) ∧
       whiteListMerge (.andNot (c0 :: rest)) w =
         .andNot (whiteListMerge c0 w :: rest)) ∧
    (∀ (t1 t2 t3 w : Blueprint), asRankOrAndNot t1 = false →
       whiteListMerge (.rank [.rank [t1, t2], t3]) w =
         .rank [.rank [.and [t1, w], t2], t3]) ∧
    (∀ (i e : Nat) (w : Blueprint),
       whiteListMerge (.leaf i e) w = .and [.leaf i e, w]) ∧
    (∀ (build : Node → Blueprint) (q : QueryState) (t : Node) (wl : Blueprint),
       q.query_tree = some t → q.whiteListBlueprint = some wl →
       (Query.reserveHandles build q).blueprint =
         some (whiteListMerge (build t) wl)) := by
  refine ⟨fun b w h => whiteListMerge_not_rankOrAndNot w h,
    fun c0 rest w h => ⟨whiteListMerge_rank_stop rest w h,
      whiteListMerge_andNot_stop rest w h⟩,
    fun c0 rest w h => ⟨whiteListMerge_rank_descend rest w h,
      whiteListMerge_andNot_descend rest w h⟩,
    fun t1 t2 t3 w h => ?_,
    fun i e w => whiteListMerge_not_rankOrAndNot w rfl,
    fun build q t wl hq hw => reserveHandles_whiteList build hq hw⟩
  rw [whiteListMerge_rank_descend [t3] w (asRankOrAndNot_rank [t1, t2]),
    whiteListMerge_rank_stop [t2] w h]

/-- Witness for C1 at concrete inputs: merging a white list into
`Rank(Rank(T1, T2), T3)` with leaf `T1` attaches the filter at `T1`'s
position. -/
theorem C1_whitelist_merge_witness :
    whiteListMerge (.rank [.rank [.leaf 1 5, .leaf 2 6], .leaf 3 7]) (.leaf 9 9) =
      .rank [.rank [.and [.leaf 1 5, .leaf 9 9], .leaf 2 6], .leaf 3 7] :=
  C1_whitelist_merge.2.2.2.1 (.leaf 1 5) (.leaf 2 6) (.leaf 3 7) (.leaf 9 9) rfl

/-- C2: Tree-injection algorithm: an `And` root gets the new node
appended as an additional child; a `Rank`/`AndNot` root recurses into
its first child only, re-attaching the result as the new first child and
leaving all other children untouched; every other root is wrapped
together with the new node under a new `And` that becomes the root. -/
theorem C2_inject_algorithm :
    (∀ (cs : List Node) (n : Node), inject (.and cs) n = .and (cs ++ [n])) ∧
    (∀ (c0 : Node) (rest : List Node) (n : Node),
       inject (.rank (c0 :: rest)) n = .rank (inject c0 n :: rest)) ∧
    (∀ (c0 : Node) (rest : List Node) (n : Node),
       inject (.andNot (c0 :: rest)) n = .andNot (inject c0 n :: rest)) ∧
    (∀ (cs : List Node) (n : Node), inject (.or cs) n = .and [.or cs, n]) ∧
    (∀ (cs : List Node) (n : Node), inject (.near cs) n = .and [.near cs, n]) ∧
    (∀ (i : Int) (v w : Str) (wt : Int) (u : UnpackMode) (n : Node),
       inject (.term i v w wt u) n = .and [.term i v w wt u, n]) ∧
    (∀ (l v : Str) (i wt : Int) (n : Node),
       inject (.locationTerm l v i wt) n = .and [.locationTerm l v i wt, n]) :=
  ⟨fun _ _ => rfl, fun _ _ _ => rfl, fun _ _ _ => rfl, fun _ _ => rfl,
   fun _ _ => rfl, fun _ _ _ _ _ _ => rfl, fun _ _ _ _ _ => rfl⟩

/-- C4: Location-injection semantics: a parsed spec with
rank-on-distance injects a synthetic location term carrying the resolved
view name and weight 100 and populates + validates the descriptor (view,
x, y, x-aspect, valid = true); a prune-on-distance-only spec performs
the same injection but leaves the descriptor untouched (not marked
valid). For the spec's illustrative string `"view1:2,100,10,0"` with
rank-on-distance semantics, the descriptor reports valid = true with
x = 100 and y = 10. -/
theorem C4_location_injection :
    (∀ (env : LocationEnv) (s viewPart loc : Str) (tree : Node)
       (fl : FefLocation) (ls : LocationSpec),
       splitAtColon s = some (viewPart, loc) →
       env.parse loc = some ls →
       ls.rankOnDistance = true →
       addLocationNode env s tree fl =
         (inject tree
            (.locationTerm loc (env.getZCurveFieldName viewPart) (-1) 100),
          { fl with
              attributeName := env.getZCurveFieldName viewPart
              x := ls.x
              y := ls.y
              xAspect := ls.xAspect
              valid := true })) ∧
    (∀ (env : LocationEnv) (s viewPart loc : Str) (tree : Node)
       (fl : FefLocation) (ls : LocationSpec),
       splitAtColon s = some (viewPart, loc) →
       env.parse loc = some ls →
       ls.rankOnDistance = false →
       ls.pruneOnDistance = true →
       addLocationNode env s tree fl =
         (inject tree
            (.locationTerm loc (env.getZCurveFieldName viewPart) (-1) 100),
          fl)) ∧
    (∀ (tree : Node),
       (addLocationNode specExampleLocationEnv ("view1:2,100,10,0".toList)
           tree {}).2 =
         { attributeName := "view1_zcurve".toList, x := 100, y := 10,
           xAspect := 0, valid := true }) := by
  refine ⟨fun env s viewPart loc tree fl ls hs hp hr =>
      addLocationNode_rankOnDistance env hs hp hr tree fl,
    fun env s viewPart loc tree fl ls hs hp hr hpr =>
      addLocationNode_pruneOnDistance env hs hp hr hpr tree fl,
    fun tree => ?_⟩
  rw [@addLocationNode_rankOnDistance specExampleLocationEnv
    ("view1:2,100,10,0".toList) ("view1".toList) ("2,100,10,0".toList)
    { x := 100, y := 10, xAspect := 0,
      rankOnDistance := true, pruneOnDistance := false }
    (by decide) (by decide) rfl tree {}]
  rfl

/-- Witness for C4 at the spec's illustrative input: injecting
`"view1:2,100,10,0"` into a bare `Near` root yields the wrapped tree and
a valid descriptor with x = 100 and y = 10. -/
theorem C4_location_injection_witness :
    addLocationNode specExampleLocationEnv ("view1:2,100,10,0".toList)
        (.near []) {} =
      (inject (.near [])
         (.locationTerm ("2,100,10,0".toList)
           (specExampleLocationEnv.getZCurveFieldName ("view1".toList)) (-1) 100),
       { attributeName :=
           specExampleLocationEnv.getZCurveFieldName ("view1".toList),
         x := 100, y := 10, xAspect := 0, valid := true }) :=
  C4_location_injection.1 specExampleLocationEnv ("view1:2,100,10,0".toList)
    ("view1".toList) ("2,100,10,0".toList) (.near []) {}
    { x := 100, y := 10, xAspect := 0,
      rankOnDistance := true, pruneOnDistance := false }
    (by decide) (by decide) rfl

/-- C5: Location-injector error handling: an empty location string, a
string without the `':'` separator, and a spec sub-string the external
parser rejects each leave the stage a no-op: the query tree and the
location descriptor are returned unchanged (in particular the descriptor
stays invalid), and no error is signalled (the function is total). -/
theorem C5_location_error_handling :
    (∀ (env : LocationEnv) (tree : Node) (fl : FefLocation),
       addLocationNode env [] tree fl = (tree, fl)) ∧
    (∀ (env : LocationEnv) (s : Str) (tree : Node) (fl : FefLocation),
       splitAtColon s = none →
       addLocationNode env s tree fl = (tree, fl)) ∧
    (∀ (env : LocationEnv) (s viewPart loc : Str) (tree : Node)
       (fl : FefLocation),
       splitAtColon s = some (viewPart, loc) →
       env.parse loc = none →
       addLocationNode env s tree fl = (tree, fl)) ∧
    (∀ (env : LocationEnv) (s : Str) (tree : Node),
       splitAtColon s = none →
       (addLocationNode env s tree { }).2.valid = false) := by
  refine ⟨fun env tree fl => addLocationNode_nil env tree fl,
    fun env s tree fl hs => addLocationNode_noColon env hs tree fl,
    fun env s viewPart loc tree fl hs hp =>
      addLocationNode_parseFail env hs hp tree fl,
    fun env s tree hs => ?_⟩
  rw [addLocationNode_noColon env hs tree { }]

/-- Witness for C5: a location string with no `':'` character leaves the
tree and the (invalid) descriptor unchanged. -/
theorem C5_location_error_handling_witness :
    addLocationNode specExampleLocationEnv ("noseparator".toList)
        (.near []) {} = (.near [], {}) :=
  C5_location_error_handling.2.1 specExampleLocationEnv
    ("noseparator".toList) (.near []) {} (by decide)

/-- C6: buildTree failure signalling: `buildTree` returns `false`
exactly when the tree creator produces no tree; in that case no
downstream pass runs and the state holds no (partially built) tree,
only the null creator result; when a tree is produced, `buildTree`
returns `true`. -/
theorem C6_buildTree_failure :
    ∀ (env : BuildEnv) (stack loc_str : Str) (su du : Bool) (q : QueryState),
      ((Query.buildTree env stack loc_str su du q).2 = false ↔
        env.create stack = none) ∧
      (env.create stack = none →
        (Query.buildTree env stack loc_str su du q).1 =
          { q with query_tree := none }) ∧
      (∀ t, env.create stack = some t →
        (Query.buildTree env stack loc_str su du q).2 = true) := by
  intro env stack loc_str su du q
  refine ⟨⟨fun hf => ?_, fun hn => ?_⟩, fun hn => ?_, fun t ht => ?_⟩
  · cases hc : env.create stack with
    | none => rfl
    | some t => simp [Query.buildTree, hc] at hf
  · simp [Query.buildTree, hn]
  · simp [Query.buildTree, hn]
  · simp [Query.buildTree, ht]

/-- A concrete environment whose creator always fails (malformed
expression stack). -/
def cEnvFail : BuildEnv :=
  { create := fun _ => none
    sameElementModifier := id
    unpackingOptimize := fun t _ _ _ => t
    resolveViews := id
    loc := specExampleLocationEnv }

/-- Witness for C6: with a creator that produces no tree, `buildTree`
leaves the fresh query with no tree (and, per the theorem, returns
`false`). -/
theorem C6_buildTree_failure_witness :
    (Query.buildTree cEnvFail [] [] false false Query.init).1 =
      { Query.init with query_tree := none } :=
  (C6_buildTree_failure cEnvFail [] [] false false Query.init).2.1 rfl

/-- C7 (amended): for every expression stream from which the creator
produces a tree, and external rewriting passes that preserve the term
count, `buildTree` succeeds and the resulting tree's term count equals
the created tree's term-leaf count plus one exactly when a location term
was injected — which happens both for ranking-by-distance and for
pruning-by-distance-only location specs, not only for ranking ones. -/
theorem C7_term_count :
    ∀ (env : BuildEnv) (stack loc_str : Str) (su du : Bool) (q : QueryState)
      (t : Node),
      env.create stack = some t →
      (∀ u, (env.sameElementModifier u).termCount = u.termCount) →
      (∀ u b1 b2 b3, (env.unpackingOptimize u b1 b2 b3).termCount = u.termCount) →
      (∀ u, (env.resolveViews u).termCount = u.termCount) →
      (Query.buildTree env stack loc_str su du q).2 = true ∧
      treeTermCount (Query.buildTree env stack loc_str su du q).1.query_tree =
        t.termCount +
          (if (locationInjectKind env.loc loc_str).isSome then 1 else 0) := by
  intro env stack loc_str su du q t hc hsame hunp hres
  refine ⟨by simp [Query.buildTree, hc], ?_⟩
  simp only [Query.buildTree, hc, treeTermCount]
  rw [hres, hunp, addLocationNode_termCount, hsame]

/-- Witness for C7 at a concrete input: a one-term expression with a
rank-on-distance location gets exactly one extra term. -/
theorem C7_term_count_witness :
    (Query.buildTree
        { create := fun _ => some (.term 1 [] [] 100 .eager)
          sameElementModifier := id
          unpackingOptimize := fun t _ _ _ => t
          resolveViews := id
          loc := specExampleLocationEnv }
        [] ("view1:2,100,10,0".toList) false false Query.init).2 = true ∧
    treeTermCount (Query.buildTree
        { create := fun _ => some (.term 1 [] [] 100 .eager)
          sameElementModifier := id
          unpackingOptimize := fun t _ _ _ => t
          resolveViews := id
          loc := specExampleLocationEnv }
        [] ("view1:2,100,10,0".toList) false false Query.init).1.query_tree =
      (Node.term 1 [] [] 100 .eager).termCount +
        (if (locationInjectKind specExampleLocationEnv
            ("view1:2,100,10,0".toList)).isSome then 1 else 0) :=
  C7_term_count
    { create := fun _ => some (.term 1 [] [] 100 .eager)
      sameElementModifier := id
      unpackingOptimize := fun t _ _ _ => t
      resolveViews := id
      loc := specExampleLocationEnv }
    [] ("view1:2,100,10,0".toList) false false Query.init
    (.term 1 [] [] 100 .eager) rfl (fun _ => rfl) (fun _ _ _ _ => rfl)
    (fun _ => rfl)

/-- Modelled from the spec: an external parse result of the
prune-by-distance-only kind — per §4.2 a location spec may request
pruning by distance with no ranking contribution, in which case the same
injection happens but the descriptor stays unpopulated
(`search::common::Location::parse` itself is not under `src/`). -/
def pruneOnlyParse : Str → Option LocationSpec := fun loc =>
  if loc = "p".toList then
    some { x := 0, y := 0, xAspect := 0,
           rankOnDistance := false, pruneOnDistance := true }
  else none

/-- Concrete build environment with a one-term expression and the
prune-only location parser, used to test the stated C7 claim. -/
def cEnvPrune : BuildEnv :=
  { create := fun _ => some (.term 1 [] [] 100 .eager)
    sameElementModifier := id
    unpackingOptimize := fun t _ _ _ => t
    resolveViews := id
    loc := { getZCurveFieldName := id, parse := pruneOnlyParse } }

/-- Counterexample to C7 as stated: with a one-term expression (term
count 1) and location string `"f:p"` whose spec parses as
prune-by-distance only, `buildTree` succeeds, no ranking-distance
location is injected (`locationInjectKind` reports a prune-only
injection, `some false`), and yet the resulting tree holds 2 terms —
so the term count is the leaf count plus one even though no
ranking-distance location was injected, refuting the claimed
"plus one exactly when a ranking-distance location was injected". -/
theorem C7_counterexample :
    (Query.buildTree cEnvPrune [] ("f:p".toList) false false Query.init).2 =
      true ∧
    locationInjectKind cEnvPrune.loc ("f:p".toList) = some false ∧
    treeTermCount (Query.buildTree cEnvPrune [] ("f:p".toList) false false
        Query.init).1.query_tree = 2 ∧
    (Node.term 1 [] [] 100 .eager).termCount = 1 ∧
    (2 : Nat) ≠ 1 + 0 := by
  refine ⟨rfl, by decide, rfl, rfl, by decide⟩

/-- C3: Two-phase optimizer protocol: within one `optimize()` call the
blueprint-optimization rewrite runs once; a second run happens if and
only if, after the first run, the root's state wants a global filter, in
which case a global filter built from the white-list provider's bitmap
(when a provider is present) is attached between the two runs; the
rewrite never runs a third time in the same call. -/
theorem C3_two_phase_optimize :
    ∀ (env : OptEnv) (q : QueryState) (b : Blueprint),
      q.blueprint = some b →
      countRuns (Query.optimizeQ env q).2 =
        (if env.wantGlobalFilter (env.optimizeBp b) then 2 else 1) ∧
      countRuns (Query.optimizeQ env q).2 ≤ 2 ∧
      (env.wantGlobalFilter (env.optimizeBp b) = true →
        (Query.optimizeQ env q).2 =
          [OptEvent.runOptimize,
           OptEvent.attachGlobalFilter q.white_list_provider,
           OptEvent.runOptimize]) ∧
      (env.wantGlobalFilter (env.optimizeBp b) = false →
        (Query.optimizeQ env q).2 = [OptEvent.runOptimize]) := by
  intro env q b hb
  by_cases hw : env.wantGlobalFilter (env.optimizeBp b)
  · refine ⟨?_, ?_, fun _ => ?_, fun hf => ?_⟩
    · simp [Query.optimizeQ, hb, hw, countRuns]
    · simp [Query.optimizeQ, hb, hw, countRuns]
    · simp [Query.optimizeQ, hb, hw]
    · rw [hw] at hf; exact Bool.noConfusion hf
  · rw [Bool.not_eq_true] at hw
    refine ⟨?_, ?_, fun ht => ?_, fun _ => ?_⟩
    · simp [Query.optimizeQ, hb, hw, countRuns]
    · simp [Query.optimizeQ, hb, hw, countRuns]
    · rw [hw] at ht; exact Bool.noConfusion ht
    · simp [Query.optimizeQ, hb, hw]

/-- Witness for C3 at a concrete input: an environment whose root wants
a global filter after the first run produces exactly the
run/attach/run trace, with the filter built from the provider bitmap. -/
theorem C3_two_phase_optimize_witness :
    (Query.optimizeQ
        { optimizeBp := fun b => b
          wantGlobalFilter := fun _ => true
          setGlobalFilter := fun b _ => b }
        { Query.init with
            blueprint := some (.leaf 1 5)
            white_list_provider := some [true, false] }).2 =
      [OptEvent.runOptimize,
       OptEvent.attachGlobalFilter (some [true, false]),
       OptEvent.runOptimize] :=
  (C3_two_phase_optimize
    { optimizeBp := fun b => b
      wantGlobalFilter := fun _ => true
      setGlobalFilter := fun b _ => b }
    { Query.init with
        blueprint := some (.leaf 1 5)
        white_list_provider := some [true, false] }
    (.leaf 1 5) rfl).2.2.1 rfl

/-- C8: Optimizer idempotence: with the spec-modelled cost rewrite and a
tree in which no node requests a global filter, a second `optimize()`
call after a first one changes neither the query state (in particular
the blueprint tree structure) nor the hit-count estimate. -/
theorem C8_optimize_idempotent :
    ∀ (want : Blueprint → Bool)
      (setGF : Blueprint → Option (List Bool) → Blueprint)
      (q : QueryState) (b : Blueprint),
      q.blueprint = some b →
      (∀ x, want x = false) →
      (Query.optimizeQ ⟨specOptimize, want, setGF⟩
          (Query.optimizeQ ⟨specOptimize, want, setGF⟩ q).1).1 =
        (Query.optimizeQ ⟨specOptimize, want, setGF⟩ q).1 ∧
      ((Query.optimizeQ ⟨specOptimize, want, setGF⟩
          (Query.optimizeQ ⟨specOptimize, want, setGF⟩ q).1).1.blueprint.map
            Blueprint.estimate) =
        ((Query.optimizeQ ⟨specOptimize, want, setGF⟩ q).1.blueprint.map
            Blueprint.estimate) := by
  intro want setGF q b hb hw
  have h1 : (Query.optimizeQ ⟨specOptimize, want, setGF⟩ q).1 =
      { q with blueprint := some (specOptimize b) } := by
    simp [Query.optimizeQ, hb, hw]
  have h2 : (Query.optimizeQ ⟨specOptimize, want, setGF⟩
      (Query.optimizeQ ⟨specOptimize, want, setGF⟩ q).1).1 =
      (Query.optimizeQ ⟨specOptimize, want, setGF⟩ q).1 := by
    rw [h1]
    simp [Query.optimizeQ, hw, specOptimize_idem]
  exact ⟨h2, by rw [h2]⟩

/-- Witness for C8 at a concrete input: an `And` of two leaves (with the
cheaper one second, so the first run really reorders) reaches a fixed
point after one `optimize()` call. -/
theorem C8_optimize_idempotent_witness :
    (Query.optimizeQ ⟨specOptimize, fun _ => false, fun b _ => b⟩
        (Query.optimizeQ ⟨specOptimize, fun _ => false, fun b _ => b⟩
          { Query.init with
              blueprint := some (.and [.leaf 1 5, .leaf 2 3]) }).1).1 =
      (Query.optimizeQ ⟨specOptimize, fun _ => false, fun b _ => b⟩
        { Query.init with
            blueprint := some (.and [.leaf 1 5, .leaf 2 3]) }).1 ∧
    ((Query.optimizeQ ⟨specOptimize, fun _ => false, fun b _ => b⟩
        (Query.optimizeQ ⟨specOptimize, fun _ => false, fun b _ => b⟩
          { Query.init with
              blueprint := some (.and [.leaf 1 5, .leaf 2 3]) }).1).1.blueprint.map
            Blueprint.estimate) =
      ((Query.optimizeQ ⟨specOptimize, fun _ => false, fun b _ => b⟩
          { Query.init with
              blueprint := some (.and [.leaf 1 5, .leaf 2 3]) }).1.blueprint.map
            Blueprint.estimate) :=
  C8_optimize_idempotent (fun _ => false) (fun b _ => b)
    { Query.init with blueprint := some (.and [.leaf 1 5, .leaf 2 3]) }
    (.and [.leaf 1 5, .leaf 2 3]) rfl (fun _ => rfl)

/-- C9 (amended): the unpacking-mode optimization run by `buildTree`
annotates the tree using the white-list presence sampled at `buildTree`
time (`bool(_whiteListBlueprint)`): supplying the white list before
`buildTree` makes the optimizer see a visibility filter, while supplying
it after `buildTree` (even before `reserveHandles`) leaves the
annotation computed without one — so the two orders agree only when the
optimizer ignores the flag, not in general. -/
theorem C9_unpacking_timing :
    ∀ (env : BuildEnv) (stack loc_str : Str) (su du : Bool) (q : QueryState)
      (wl : WhiteList) (t : Node),
      env.create stack = some t →
      q.whiteListBlueprint = none →
      ((Query.buildTree env stack loc_str su du
          (Query.setWhiteListBlueprint wl q)).1.query_tree =
        some (env.resolveViews (env.unpackingOptimize
          (addLocationNode env.loc loc_str (env.sameElementModifier t)
            q.location).1 true su du))) ∧
      ((Query.setWhiteListBlueprint wl
          (Query.buildTree env stack loc_str su du q).1).query_tree =
        some (env.resolveViews (env.unpackingOptimize
          (addLocationNode env.loc loc_str (env.sameElementModifier t)
            q.location).1 false su du))) := by
  intro env stack loc_str su du q wl t hc hq
  constructor
  · simp [Query.buildTree, Query.setWhiteListBlueprint, hc]
  · simp [Query.buildTree, Query.setWhiteListBlueprint, hc, hq]

/-- Concrete build environment using the spec-modelled unpacking
optimizer, used to test the stated C9 claim. -/
def cEnvUnpack : BuildEnv :=
  { create := fun _ => some (.term 1 [] [] 100 .eager)
    sameElementModifier := id
    unpackingOptimize := specUnpackingOptimize
    resolveViews := id
    loc := specExampleLocationEnv }

/-- A concrete white-list blueprint with no provider bitmap. -/
def cWhiteList : WhiteList :=
  { blueprint := .leaf 7 3, providerFilter := none }

/-- State after supplying the white list before `buildTree`. -/
def runWhiteListBefore : QueryState :=
  (Query.buildTree cEnvUnpack [] [] true false
    (Query.setWhiteListBlueprint cWhiteList Query.init)).1

/-- State after supplying the white list after `buildTree` (but before
`reserveHandles`). -/
def runWhiteListAfter : QueryState :=
  Query.setWhiteListBlueprint cWhiteList
    (Query.buildTree cEnvUnpack [] [] true false Query.init).1

/-- Counterexample to C9 as stated: with the spec-modelled unpacking
optimizer (whose annotation depends, as the spec says, on whether a
visibility filter is present) and split-unpacking configured, supplying
the white list before `buildTree` annotates the term `splitMode` while
supplying it after `buildTree` but before `reserveHandles` leaves it
`eager`; the resulting trees differ, refuting "the resulting unpacking
annotation is the same". -/
theorem C9_counterexample :
    headUnpackOpt runWhiteListBefore.query_tree = some .splitMode ∧
    headUnpackOpt runWhiteListAfter.query_tree = some .eager ∧
    runWhiteListBefore.query_tree ≠ runWhiteListAfter.query_tree := by
  refine ⟨rfl, rfl, fun h => ?_⟩
  have hproj := congrArg headUnpackOpt h
  rw [show headUnpackOpt runWhiteListBefore.query_tree =
      some UnpackMode.splitMode from rfl,
    show headUnpackOpt runWhiteListAfter.query_tree =
      some UnpackMode.eager from rfl] at hproj
  exact absurd hproj (by decide)

/-- Witness for C9 (amended) at a concrete input: both orders expressed
through the same environment, showing the flag seen by the optimizer. -/
theorem C9_unpacking_timing_witness :
    (runWhiteListBefore.query_tree =
      some (cEnvUnpack.resolveViews (cEnvUnpack.unpackingOptimize
        (addLocationNode cEnvUnpack.loc []
          (cEnvUnpack.sameElementModifier (.term 1 [] [] 100 .eager))
          Query.init.location).1 true true false))) ∧
    (runWhiteListAfter.query_tree =
      some (cEnvUnpack.resolveViews (cEnvUnpack.unpackingOptimize
        (addLocationNode cEnvUnpack.loc []
          (cEnvUnpack.sameElementModifier (.term 1 [] [] 100 .eager))
          Query.init.location).1 false true false))) :=
  C9_unpacking_timing cEnvUnpack [] [] true false Query.init cWhiteList
    (.term 1 [] [] 100 .eager) rfl rfl

/-- C10: `extractLocations` first clears the output vector and then
returns exactly one location-descriptor pointer — the query's single
internal descriptor — regardless of the prior contents and of whether a
location was ever injected; after a build with no usable location string
the returned descriptor is present but invalid, never absent. -/
theorem C10_extractLocations :
    ∀ (prior : List FefLocation) (q : QueryState),
      Query.extractLocations prior q = [q.location] ∧
      (Query.extractLocations prior q).length = 1 ∧
      Query.extractLocations prior q ≠ [] ∧
      (∀ (env : BuildEnv) (stack s : Str) (su du : Bool),
        splitAtColon s = none →
        Query.extractLocations prior
            (Query.buildTree env stack s su du Query.init).1 =
          [Query.init.location] ∧
        Query.init.location.valid = false) := by
  intro prior q
  refine ⟨rfl, rfl, by simp [Query.extractLocations], ?_⟩
  intro env stack s su du hs
  refine ⟨?_, rfl⟩
  cases hc : env.create stack with
  | none => simp [Query.extractLocations, Query.buildTree, hc]
  | some t =>
    simp [Query.extractLocations, Query.buildTree, hc,
      addLocationNode_noColon env.loc hs]

/-- Witness for C10 at a concrete input: a failed build and a location
string with no `':'` still yield exactly one, invalid, descriptor. -/
theorem C10_extractLocations_witness :
    Query.extractLocations [{ valid := true }, { valid := true }]
        (Query.buildTree cEnvFail [] ("noseparator".toList) false false
          Query.init).1 =
      [Query.init.location] ∧
    Query.init.location.valid = false :=
  (C10_extractLocations [{ valid := true }, { valid := true }]
    (Query.buildTree cEnvFail [] ("noseparator".toList) false false
      Query.init).1).2.2.2 cEnvFail [] ("noseparator".toList) false false
    (by decide)
